import Mathlib

/-!
Verification of the device-rotation core of a tray utility that cycles the
operating system default audio-output device (src/src/main.rs). The pure
logic of the program is embedded shallowly: the rotation engine
(AudioSwitch::next_device), the menu-id codec (device_id_to_menu_id), the
menu dispatch (AudioSwitch::menu_selection), the tooltip buffer
(string_to_tip) and the selectable-state persistence
(save/load/apply_device_selectable_state). Native OS calls (COM device
enumeration, the policy-config endpoint setter, Win32 menu calls, the file
system and the serde_json round-trip) are external collaborators of this
core; they are modelled by passing their answers in as arguments or, for
the config file, by a small state type that stores the map exactly.
-/

set_option maxRecDepth 8192

/-- Embeds struct AudioDevice (src/src/main.rs:118): native id, display
name, rotation-participation flag, and the form factor carried as the raw
integer code of EndpointFormFactor. -/
structure AudioDevice where
  id : String
  friendly_name : String
  selectable : Bool
  form_factor : Int
deriving DecidableEq

/-- Embeds const POPUP_EXIT_ID (src/src/main.rs:327). -/
def POPUP_EXIT_ID : Nat := 1

/-- Embeds const POPUP_CURRENT_DEVICE_ID (src/src/main.rs:328). -/
def POPUP_CURRENT_DEVICE_ID : Nat := 2

/-- Reflected form of the CRC-16/ARC generator polynomial 0x8005, the
constant 0xA001 used by the shift-and-xor loop. -/
def crcPoly : Nat := 40961

/-- One shift-and-conditionally-xor step of the reflected CRC-16
computation: shift right one bit and fold in the polynomial when the
dropped bit was set. -/
def crcBitStep (crc : Nat) : Nat :=
  if crc % 2 = 1 then (crc / 2) ^^^ crcPoly else crc / 2

/-- Iterates crcBitStep a given number of times. -/
def crcSteps : Nat → Nat → Nat
  | 0, crc => crc
  | m + 1, crc => crcSteps m (crcBitStep crc)

/-- Folds one input byte into the running CRC: xor the byte into the low
bits, then run eight bit steps. -/
def crcByte (crc b : Nat) : Nat := crcSteps 8 (crc ^^^ b)

/-- CRC-16/ARC of a byte list (init 0, reflected, xorout 0). This is the
checksum computed by State::<crc16::ARC>::calculate, which
device_id_to_menu_id (src/src/main.rs:332) applies to the id bytes. -/
def crc16_arc (bytes : List Nat) : Nat := bytes.foldl crcByte 0

/-- UTF-8 encoding of one scalar value, as produced by str::as_bytes in
Rust; the continuation bytes carry six payload bits each. -/
def charUtf8Bytes (c : Char) : List Nat :=
  let n := c.toNat
  if n < 128 then [n]
  else if n < 2048 then [192 + n / 64, 128 + n % 64]
  else if n < 65536 then [224 + n / 4096, 128 + n / 64 % 64, 128 + n % 64]
  else [240 + n / 262144, 128 + n / 4096 % 64, 128 + n / 64 % 64, 128 + n % 64]

/-- UTF-8 byte sequence of a string (str::as_bytes). -/
def strBytes (s : String) : List Nat := s.data.flatMap charUtf8Bytes

/-- Embeds fn device_id_to_menu_id (src/src/main.rs:332): the CRC-16/ARC of
the UTF-8 bytes of the device id, widened from u16 to u32 with the value
unchanged. -/
def device_id_to_menu_id (device_id : String) : Nat := crc16_arc (strBytes device_id)

/-- UTF-16 code units of one scalar value, as produced by
str::encode_utf16 in Rust: one unit below 0x10000, a surrogate pair above. -/
def charUtf16Units (c : Char) : List Nat :=
  let n := c.toNat
  if n < 65536 then [n]
  else [55296 + (n - 65536) / 1024, 56320 + (n - 65536) % 1024]

/-- UTF-16 code-unit sequence of a string (str::encode_utf16). -/
def utf16Units (s : String) : List Nat := s.data.flatMap charUtf16Units

/-- Embeds fn string_to_tip (src/src/main.rs:82): builds the fixed 128-unit
tooltip buffer, the encoded units followed by zero fill. The source runs
assert!(encoded.len() < ret.len()); an encoding of 128 or more units fails
the assertion and aborts the process, modelled as none. -/
def string_to_tip (s : String) : Option (List Nat) :=
  let encoded := utf16Units s
  if encoded.length < 128 then
    some (encoded ++ List.replicate (128 - encoded.length) 0)
  else
    none

/-- Embeds the current-index step of AudioSwitch::next_device
(src/src/main.rs:273): the position of the current id in the device list,
with unwrap_or(0) when the id is not present. -/
def current_index (devices : List AudioDevice) (current : String) : Nat :=
  (devices.findIdx? (fun d => d.id == current)).getD 0

/-- Embeds the enumerate-and-filter step of AudioSwitch::next_device
(src/src/main.rs:279): the selectable devices paired with their
enumeration indices. -/
def selectable_devices (devices : List AudioDevice) : List (Nat × AudioDevice) :=
  devices.enum.filter (fun p => p.2.selectable)

/-- Core of AudioSwitch::next_device once the current index is known
(src/src/main.rs:285): none when no device is selectable, otherwise the
first selectable device strictly after the current index, wrapping to the
first selectable device when none lies after it. -/
def next_from_index (devices : List AudioDevice) (ci : Nat) : Option AudioDevice :=
  let sel := selectable_devices devices
  if sel.isEmpty then none
  else ((sel.find? (fun p => ci < p.1)).orElse (fun _ => sel.head?)).map (fun p => p.2)

/-- Embeds AudioSwitch::next_device (src/src/main.rs:270) as the rotation
engine next operation; the OS answer for the current default endpoint is
passed in as current. -/
def next_device (devices : List AudioDevice) (current : String) : Option AudioDevice :=
  next_from_index devices (current_index devices current)

/-- Observable outcome of one full activation of AudioSwitch::next_device,
including the tooltip construction on the taken switch path. -/
inductive RunResult where
  | ok (switched : Option AudioDevice)
  | panicked
deriving DecidableEq

/-- Runs next_device and then builds the tooltip for the activated device
exactly as AudioSwitch::next_device does (src/src/main.rs:299 passes the
friendly name to string_to_tip); a failed tooltip assertion is a panic. -/
def next_device_run (devices : List AudioDevice) (current : String) : RunResult :=
  match next_device devices current with
  | none => RunResult.ok none
  | some d =>
    match string_to_tip d.friendly_name with
    | some _ => RunResult.ok (some d)
    | none => RunResult.panicked

/-- Flips the selectable flag of the first device whose menu id matches,
as the iter_mut().find of AudioSwitch::menu_selection does. -/
def toggle_first (devices : List AudioDevice) (mid : Nat) : List AudioDevice :=
  match devices with
  | [] => []
  | d :: rest =>
    if mid == device_id_to_menu_id d.id then
      { d with selectable := !d.selectable } :: rest
    else
      d :: toggle_first rest mid

/-- Embeds AudioSwitch::menu_selection (src/src/main.rs:216): the exit id
posts a close message and leaves the device list unchanged; otherwise the
first device with a matching menu id has its selectable flag toggled; an
unknown id is logged and ignored. Every one of these paths ends in Ok(()),
so the returned value is the same unit success in all of them. -/
def menu_selection (devices : List AudioDevice) (mid : Nat) :
    List AudioDevice × Except String Unit :=
  if mid = POPUP_EXIT_ID then (devices, Except.ok ())
  else
    match devices.findIdx? (fun d => mid == device_id_to_menu_id d.id) with
    | none => (devices, Except.ok ())
    | some _ => (toggle_first devices mid, Except.ok ())

/-- Model of the persisted device_config.json file: absent on first run,
malformed when the stored text does not parse as a string-to-bool JSON
object, or the parsed map. The file system and the serde_json round-trip
are external collaborators of the core and are modelled as exact storage
of the map. -/
inductive ConfigFile where
  | absent
  | malformed
  | valid (m : List (String × Bool))
deriving DecidableEq

/-- Insert-or-replace on the association-list model of
std::collections::HashMap<String, bool>. -/
def hmInsert (m : List (String × Bool)) (k : String) (v : Bool) : List (String × Bool) :=
  match m with
  | [] => [(k, v)]
  | p :: rest => if p.1 == k then (k, v) :: rest else p :: hmInsert rest k v

/-- Lookup on the association-list model of HashMap<String, bool>. -/
def hmGet (m : List (String × Bool)) (k : String) : Option Bool :=
  (m.find? (fun p => p.1 == k)).map (fun p => p.2)

/-- Builds the HashMap from a sequence of pairs, later keys overwriting
earlier ones, as collect::<HashMap<_, _>>() does. -/
def hmOfList (l : List (String × Bool)) : List (String × Bool) :=
  l.foldl (fun m p => hmInsert m p.1 p.2) []

/-- Embeds fn save_device_selectable_state (src/src/main.rs:551): collects
the map from device id to selectable flag and overwrites the config file
with it. -/
def save_device_selectable_state (devices : List AudioDevice) : ConfigFile :=
  ConfigFile.valid (hmOfList (devices.map (fun d => (d.id, d.selectable))))

/-- Embeds fn load_device_selectable_state (src/src/main.rs:571): an absent
file yields an empty map, unparsable content propagates the serde_json
error, otherwise the parsed map is returned. -/
def load_device_selectable_state (file : ConfigFile) :
    Except String (List (String × Bool)) :=
  match file with
  | ConfigFile.absent => Except.ok []
  | ConfigFile.malformed => Except.error "invalid JSON in device_config.json"
  | ConfigFile.valid m => Except.ok m

/-- Embeds fn apply_device_selectable_state (src/src/main.rs:590): every
device whose id is a key of the saved map gets the stored selectable
value; all other devices are left alone. -/
def apply_device_selectable_state (devices : List AudioDevice)
    (saved_states : List (String × Bool)) : List AudioDevice :=
  devices.map (fun d =>
    match hmGet saved_states d.id with
    | some b => { d with selectable := b }
    | none => d)

/-- Standard published 256-entry lookup table of CRC-16/ARC. The spec asks
the Menu-Id Codec for a widely-available, well-specified 16-bit checksum
so that independent implementations agree bit-for-bit; this table-driven
form is that independent reference implementation. -/
def arcTable : List Nat := [0, 49345, 49537, 320, 49921, 960, 640, 49729, 50689, 1728, 1920, 51009, 1280, 50625, 50305, 1088, 52225, 3264, 3456, 52545, 3840, 53185, 52865, 3648, 2560, 51905, 52097, 2880, 51457, 2496, 2176, 51265, 55297, 6336, 6528, 55617, 6912, 56257, 55937, 6720, 7680, 57025, 57217, 8000, 56577, 7616, 7296, 56385, 5120, 54465, 54657, 5440, 55041, 6080, 5760, 54849, 53761, 4800, 4992, 54081, 4352, 53697, 53377, 4160, 61441, 12480, 12672, 61761, 13056, 62401, 62081, 12864, 13824, 63169, 63361, 14144, 62721, 13760, 13440, 62529, 15360, 64705, 64897, 15680, 65281, 16320, 16000, 65089, 64001, 15040, 15232, 64321, 14592, 63937, 63617, 14400, 10240, 59585, 59777, 10560, 60161, 11200, 10880, 59969, 60929, 11968, 12160, 61249, 11520, 60865, 60545, 11328, 58369, 9408, 9600, 58689, 9984, 59329, 59009, 9792, 8704, 58049, 58241, 9024, 57601, 8640, 8320, 57409, 40961, 24768, 24960, 41281, 25344, 41921, 41601, 25152, 26112, 42689, 42881, 26432, 42241, 26048, 25728, 42049, 27648, 44225, 44417, 27968, 44801, 28608, 28288, 44609, 43521, 27328, 27520, 43841, 26880, 43457, 43137, 26688, 30720, 47297, 47489, 31040, 47873, 31680, 31360, 47681, 48641, 32448, 32640, 48961, 32000, 48577, 48257, 31808, 46081, 29888, 30080, 46401, 30464, 47041, 46721, 30272, 29184, 45761, 45953, 29504, 45313, 29120, 28800, 45121, 20480, 37057, 37249, 20800, 37633, 21440, 21120, 37441, 38401, 22208, 22400, 38721, 21760, 38337, 38017, 21568, 39937, 23744, 23936, 40257, 24320, 40897, 40577, 24128, 23040, 39617, 39809, 23360, 39169, 22976, 22656, 38977, 34817, 18624, 18816, 35137, 19200, 35777, 35457, 19008, 19968, 36545, 36737, 20288, 36097, 19904, 19584, 35905, 17408, 33985, 34177, 17728, 34561, 18368, 18048, 34369, 33281, 17088, 17280, 33601, 16640, 33217, 32897, 16448]

/-- Table-driven CRC-16/ARC, the common shape of an independent
implementation of the checksum named by the spec for the Menu-Id Codec. -/
def crc16_arc_table (bytes : List Nat) : Nat :=
  bytes.foldl (fun crc b => arcTable.getD ((crc ^^^ b) % 256) 0 ^^^ crc / 256) 0

/-- Concrete device A of the spec scenarios. -/
def devA : AudioDevice := ⟨"id-a", "Device A", true, 0⟩

/-- Concrete device B of the spec scenarios. -/
def devB : AudioDevice := ⟨"id-b", "Device B", false, 0⟩

/-- Concrete device C of the spec scenarios. -/
def devC : AudioDevice := ⟨"id-c", "Device C", true, 0⟩

example : next_device [devA, devB, devC] "id-a" = some devC := by decide
example : next_device [devA, devB, devC] "id-c" = some devA := by decide
example : next_device [devA, ⟨"id-b", "Device B", true, 0⟩, devC] "id-c" = some devA := by decide
example : crc16_arc (strBytes "123456789") = 47933 := by decide
example : crc16_arc_table (strBytes "123456789") = 47933 := by decide
example : device_id_to_menu_id "cCi" = 1 := by decide
example : device_id_to_menu_id "gGj" = 2 := by decide
example : device_id_to_menu_id "a" = 59585 := by decide

/-- Membership in the enumerated selectable list describes exactly the
selectable devices together with their positions. -/
lemma mem_selectable_devices {devices : List AudioDevice} {p : Nat × AudioDevice} :
    p ∈ selectable_devices devices ↔ devices[p.1]? = some p.2 ∧ p.2.selectable = true := by
  cases p with
  | mk i d =>
    simp [selectable_devices, List.mem_filter, List.mem_enum_iff_getElem?]

/-- Positions in the enumerated selectable list are strictly increasing. -/
lemma selectable_devices_pairwise (devices : List AudioDevice) :
    (selectable_devices devices).Pairwise (fun p q => p.1 < q.1) := by
  have henum : devices.enum.Pairwise (fun p q => p.1 < q.1) := by
    rw [List.pairwise_iff_getElem]
    intro i j hi hj hij
    rw [List.getElem_enum, List.getElem_enum]
    exact hij
  exact List.Pairwise.sublist (List.filter_sublist devices.enum) henum

/-- find? returns the element at the first position satisfying the
predicate. -/
lemma find?_eq_some_of_first {α : Type} (l : List α) (p : α → Bool) (j : Nat)
    (hj : j < l.length)
    (hbefore : ∀ i (hi : i < l.length), i < j → p (l.get ⟨i, hi⟩) = false)
    (hhit : p (l.get ⟨j, hj⟩) = true) :
    l.find? p = some (l.get ⟨j, hj⟩) := by
  induction l generalizing j with
  | nil => simp at hj
  | cons a t ih =>
    cases j with
    | zero =>
      simpa [List.find?] using List.find?_cons_of_pos t hhit
    | succ j' =>
      have ha : p a = false := hbefore 0 (by simp) (Nat.succ_pos j')
      rw [List.find?_cons_of_neg t (by simp [ha])]
      exact ih j' (Nat.lt_of_succ_lt_succ hj)
        (fun i hi hij => hbefore (i + 1) (by simpa using Nat.succ_lt_succ hi)
          (Nat.succ_lt_succ hij)) hhit

/-- A nonempty list has its first element as head?. -/
lemma head?_eq_get_zero {α : Type} (l : List α) (h0 : 0 < l.length) :
    l.head? = some (l.get ⟨0, h0⟩) := by
  cases l with
  | nil => simp at h0
  | cons a t => rfl

/-- next_from_index answers none exactly when no device is selectable. -/
lemma next_from_index_eq_none_iff (devices : List AudioDevice) (ci : Nat) :
    next_from_index devices ci = none ↔ selectable_devices devices = [] := by
  unfold next_from_index
  by_cases hsel : selectable_devices devices = []
  · simp [hsel]
  · have hne : (selectable_devices devices).isEmpty = false := by
      simpa [List.isEmpty_iff] using hsel
    simp only [hne, Bool.false_eq_true, if_false]
    constructor
    · intro hmap
      cases hfind : (selectable_devices devices).find? (fun p => ci < p.1) with
      | some p => simp [hfind, Option.orElse] at hmap
      | none =>
        have hlen : 0 < (selectable_devices devices).length :=
          List.length_pos.mpr hsel
        rw [hfind] at hmap
        simp [Option.orElse, head?_eq_get_zero _ hlen] at hmap
    · intro h
      exact absurd h hsel

/-- Every device answered by next_from_index is a selectable member of the
list, at some position recorded in the selectable enumeration. -/
lemma next_from_index_eq_some_mem {devices : List AudioDevice} {ci : Nat}
    {d : AudioDevice} (h : next_from_index devices ci = some d) :
    ∃ i, (i, d) ∈ selectable_devices devices := by
  unfold next_from_index at h
  by_cases hempty : (selectable_devices devices).isEmpty
  · simp [hempty] at h
  · simp only [hempty, Bool.false_eq_true, if_false] at h
    cases hfind : (selectable_devices devices).find? (fun p => ci < p.1) with
    | some p =>
      rw [hfind] at h
      simp [Option.orElse] at h
      cases p with
      | mk i d' =>
        have hd : d' = d := h
        subst hd
        exact ⟨i, List.mem_of_find?_eq_some hfind⟩
    | none =>
      rw [hfind] at h
      cases hhead : (selectable_devices devices).head? with
      | none => simp [Option.orElse, hhead] at h
      | some p =>
        simp [Option.orElse, hhead] at h
        have hp : p ∈ selectable_devices devices := by
          have := List.head?_eq_getElem? (selectable_devices devices)
          rw [this] at hhead
          exact List.getElem?_mem hhead
        cases p with
        | mk i d' =>
          have hd : d' = d := h
          subst hd
          exact ⟨i, hp⟩

/-- When the current id matches no device, the position lookup misses and
unwrap_or gives index 0. -/
lemma current_index_of_not_found {devices : List AudioDevice} {current : String}
    (h : ∀ d ∈ devices, (d.id == current) = false) :
    current_index devices current = 0 := by
  unfold current_index
  rw [List.findIdx?_eq_none_iff.mpr h]
  rfl

/-- With pairwise-distinct ids, the position lookup of the id of the
element at index i answers exactly i (stated with the running start index
of findIdx?). -/
lemma findIdx?_id_nodup (l : List AudioDevice) (n i : Nat) (hi : i < l.length)
    (hnd : (l.map (fun d => d.id)).Nodup) :
    l.findIdx? (fun x => x.id == (l.get ⟨i, hi⟩).id) n = some (n + i) := by
  induction l generalizing n i with
  | nil => simp at hi
  | cons a t ih =>
    cases i with
    | zero =>
      rw [List.findIdx?_cons]
      simp
    | succ i' =>
      have hi' : i' < t.length := Nat.lt_of_succ_lt_succ hi
      have htarget : (t.get ⟨i', hi'⟩).id ∈ t.map (fun d => d.id) := by
        exact List.mem_map_of_mem _ (List.get_mem t i' hi')
      have hne : (a.id == (t.get ⟨i', hi'⟩).id) = false := by
        by_contra hcon
        have : a.id = (t.get ⟨i', hi'⟩).id := by
          have := eq_true_of_ne_false hcon
          exact eq_of_beq this
        rw [List.map_cons, List.nodup_cons] at hnd
        exact hnd.1 (this ▸ htarget)
      rw [List.findIdx?_cons]
      have hgets : ((a :: t).get ⟨i' + 1, hi⟩) = t.get ⟨i', hi'⟩ := rfl
      rw [hgets, hne]
      simp only [Bool.false_eq_true, if_false]
      have := ih (n + 1) i' hi' (by rw [List.map_cons, List.nodup_cons] at hnd; exact hnd.2)
      rw [this]
      congr 1
      omega

/-- With pairwise-distinct ids, current_index of the id of the device at
index i is i itself. -/
lemma current_index_of_getElem {devices : List AudioDevice} {i : Nat}
    (hi : i < devices.length) (hnd : (devices.map (fun d => d.id)).Nodup) :
    current_index devices (devices.get ⟨i, hi⟩).id = i := by
  unfold current_index
  rw [findIdx?_id_nodup devices 0 i hi hnd]
  simp

/-- Positions in the selectable enumeration grow strictly with the list
position. -/
lemma sel_fst_strict (devices : List AudioDevice) (m1 m2 : Nat)
    (h1 : m1 < (selectable_devices devices).length)
    (h2 : m2 < (selectable_devices devices).length) (h12 : m1 < m2) :
    ((selectable_devices devices).get ⟨m1, h1⟩).1
      < ((selectable_devices devices).get ⟨m2, h2⟩).1 := by
  have hpw := selectable_devices_pairwise devices
  rw [List.pairwise_iff_getElem] at hpw
  simpa [List.get_eq_getElem] using hpw m1 m2 h1 h2 h12

/-- Lists indexed at provably equal positions give the same element. -/
lemma get_idx_congr {α : Type} (l : List α) {i1 i2 : Nat} (h1 : i1 < l.length)
    (h2 : i2 < l.length) (h : i1 = i2) : l.get ⟨i1, h1⟩ = l.get ⟨i2, h2⟩ := by
  subst h
  rfl

/-- When some device is selectable, next_from_index answers the device of
some position of the selectable enumeration. -/
lemma next_from_index_some_of_nonempty (devices : List AudioDevice) (ci : Nat)
    (hne : selectable_devices devices ≠ []) :
    ∃ j, ∃ hj : j < (selectable_devices devices).length,
      next_from_index devices ci = some (((selectable_devices devices).get ⟨j, hj⟩).2) := by
  have hempty : (selectable_devices devices).isEmpty = false := by
    simpa [List.isEmpty_iff] using hne
  unfold next_from_index
  simp only [hempty, Bool.false_eq_true, if_false]
  cases hfind : (selectable_devices devices).find? (fun p => ci < p.1) with
  | some p =>
    have hp : p ∈ selectable_devices devices := List.mem_of_find?_eq_some hfind
    rw [List.mem_iff_get] at hp
    obtain ⟨⟨j, hj⟩, hget⟩ := hp
    exact ⟨j, hj, by simp only [Option.orElse, Option.map, hget]⟩
  | none =>
    have hlen : 0 < (selectable_devices devices).length := List.length_pos.mpr hne
    exact ⟨0, hlen, by simp [Option.orElse, head?_eq_get_zero _ hlen]⟩

/-- Successor step of the rotation: from the device at position j of the
selectable enumeration, next_device moves to position (j + 1) modulo the
number of selectable devices. This is the single-cycle structure of the
wraparound selection. -/
lemma next_device_at_sel_pos (devices : List AudioDevice)
    (hnd : (devices.map (fun d => d.id)).Nodup) (j : Nat)
    (hj : j < (selectable_devices devices).length) :
    next_device devices (((selectable_devices devices).get ⟨j, hj⟩).2).id
      = some (((selectable_devices devices).get
          ⟨(j + 1) % (selectable_devices devices).length,
            Nat.mod_lt _ (Nat.zero_lt_of_lt hj)⟩).2) := by
  have hpmem : (selectable_devices devices).get ⟨j, hj⟩ ∈ selectable_devices devices :=
    List.get_mem _ _ _
  have hpel := mem_selectable_devices.mp hpmem
  obtain ⟨hilen, hgetd⟩ := List.getElem?_eq_some.mp hpel.1
  have hci : current_index devices (((selectable_devices devices).get ⟨j, hj⟩).2).id
      = ((selectable_devices devices).get ⟨j, hj⟩).1 := by
    have := current_index_of_getElem hilen hnd
    rw [List.get_eq_getElem, hgetd] at this
    exact this
  unfold next_device
  rw [hci]
  have hempty : (selectable_devices devices).isEmpty = false := by
    have : selectable_devices devices ≠ [] := by
      intro hcon
      rw [hcon] at hj
      simp at hj
    simpa [List.isEmpty_iff] using this
  unfold next_from_index
  simp only [hempty, Bool.false_eq_true, if_false]
  rcases Nat.lt_or_ge (j + 1) (selectable_devices devices).length with hlt | hge
  · have hfind : (selectable_devices devices).find?
        (fun p => ((selectable_devices devices).get ⟨j, hj⟩).1 < p.1)
        = some ((selectable_devices devices).get ⟨j + 1, hlt⟩) := by
      apply find?_eq_some_of_first _ _ (j + 1) hlt
      · intro m hm hmlt
        rw [decide_eq_false_iff_not]
        rcases Nat.lt_or_ge m j with hmj | hmj
        · exact Nat.not_lt.mpr (Nat.le_of_lt (sel_fst_strict devices m j hm hj hmj))
        · have : m = j := Nat.le_antisymm (Nat.lt_succ_iff.mp hmlt) hmj
          subst this
          exact Nat.lt_irrefl _
      · rw [decide_eq_true_eq]
        exact sel_fst_strict devices j (j + 1) hj hlt (Nat.lt_succ_self j)
    rw [hfind]
    have hmod : (j + 1) % (selectable_devices devices).length = j + 1 :=
      Nat.mod_eq_of_lt hlt
    simp only [Option.orElse, Option.map]
    exact congrArg (fun q => some q.2) (get_idx_congr _ hlt _ hmod.symm)
  · have hk : (selectable_devices devices).length = j + 1 := Nat.le_antisymm hge hj
    have hfind : (selectable_devices devices).find?
        (fun p => ((selectable_devices devices).get ⟨j, hj⟩).1 < p.1) = none := by
      rw [List.find?_eq_none]
      intro q hq
      rw [List.mem_iff_get] at hq
      obtain ⟨⟨m, hm⟩, hget⟩ := hq
      rw [decide_eq_true_eq, ← hget]
      rcases Nat.lt_or_ge m j with hmj | hmj
      · exact Nat.not_lt.mpr (Nat.le_of_lt (sel_fst_strict devices m j hm hj hmj))
      · have : m = j := by omega
        subst this
        exact Nat.lt_irrefl _
    rw [hfind]
    have hlen : 0 < (selectable_devices devices).length := Nat.zero_lt_of_lt hj
    have hmod : (j + 1) % (selectable_devices devices).length = 0 := by
      rw [hk]
      exact Nat.mod_self _
    simp only [Option.orElse, head?_eq_get_zero _ hlen, Option.map]
    exact congrArg (fun q => some q.2) (get_idx_congr _ hlen _ hmod.symm)

/-- The selectable enumeration is empty exactly when no device in the list
is selectable. -/
lemma selectable_devices_eq_nil_iff (devices : List AudioDevice) :
    selectable_devices devices = [] ↔ ∀ d ∈ devices, d.selectable = false := by
  unfold selectable_devices
  rw [List.filter_eq_nil_iff]
  constructor
  · intro h d hd
    have : d ∈ List.map Prod.snd devices.enum := by
      rw [List.enum_map_snd]
      exact hd
    rw [List.mem_map] at this
    obtain ⟨p, hp, hpd⟩ := this
    have := h p hp
    simp only [Bool.not_eq_true] at this
    rw [← hpd]
    exact this
  · intro h p hp
    have hd : p.2 ∈ devices := by
      rw [← List.enum_map_snd devices]
      exact List.mem_map_of_mem _ hp
    simp [h p.2 hd]

/-- In the region strictly after the current index, next_from_index
answers the least selectable position. -/
lemma next_from_index_first_after (devices : List AudioDevice) (ci j : Nat)
    (hj : j < devices.length) (hsel : (devices.get ⟨j, hj⟩).selectable = true)
    (hgt : ci < j)
    (hmin : ∀ j' (hj' : j' < devices.length), ci < j' →
      (devices.get ⟨j', hj'⟩).selectable = true → j ≤ j') :
    next_from_index devices ci = some (devices.get ⟨j, hj⟩) := by
  have hjmem : (j, devices.get ⟨j, hj⟩) ∈ selectable_devices devices := by
    rw [mem_selectable_devices]
    exact ⟨List.getElem?_eq_some.mpr ⟨hj, rfl⟩, hsel⟩
  have hne : selectable_devices devices ≠ [] := by
    intro hcon
    rw [hcon] at hjmem
    simp at hjmem
  have hempty : (selectable_devices devices).isEmpty = false := by
    simpa [List.isEmpty_iff] using hne
  rw [List.mem_iff_get] at hjmem
  obtain ⟨⟨m, hm⟩, hmget⟩ := hjmem
  have hfind : (selectable_devices devices).find? (fun p => ci < p.1)
      = some ((selectable_devices devices).get ⟨m, hm⟩) := by
    apply find?_eq_some_of_first _ _ m hm
    · intro m' hm' hm'm
      rw [decide_eq_false_iff_not]
      have hq := mem_selectable_devices.mp
        (List.get_mem (selectable_devices devices) m' hm')
      obtain ⟨hq1, hq2⟩ := hq
      obtain ⟨hlt', hget'⟩ := List.getElem?_eq_some.mp hq1
      have hfstlt : ((selectable_devices devices).get ⟨m', hm'⟩).1 < j := by
        have := sel_fst_strict devices m' m hm' hm hm'm
        rw [hmget] at this
        exact this
      intro hcigt
      have := hmin _ hlt' hcigt (by rw [List.get_eq_getElem, hget']; exact hq2)
      omega
    · rw [hmget, decide_eq_true_eq]
      exact hgt
  unfold next_from_index
  simp only [hempty, Bool.false_eq_true, if_false, hfind, Option.orElse, Option.map, hmget]

/-- When no selectable position lies strictly after the current index,
next_from_index wraps to the least selectable position of the list. -/
lemma next_from_index_wrap (devices : List AudioDevice) (ci j : Nat)
    (hj : j < devices.length) (hsel : (devices.get ⟨j, hj⟩).selectable = true)
    (hafter : ∀ j' (hj' : j' < devices.length),
      (devices.get ⟨j', hj'⟩).selectable = true → ¬ ci < j')
    (hmin : ∀ j' (hj' : j' < devices.length),
      (devices.get ⟨j', hj'⟩).selectable = true → j ≤ j') :
    next_from_index devices ci = some (devices.get ⟨j, hj⟩) := by
  have hjmem : (j, devices.get ⟨j, hj⟩) ∈ selectable_devices devices := by
    rw [mem_selectable_devices]
    exact ⟨List.getElem?_eq_some.mpr ⟨hj, rfl⟩, hsel⟩
  have hne : selectable_devices devices ≠ [] := by
    intro hcon
    rw [hcon] at hjmem
    simp at hjmem
  have hempty : (selectable_devices devices).isEmpty = false := by
    simpa [List.isEmpty_iff] using hne
  have hlen : 0 < (selectable_devices devices).length := List.length_pos.mpr hne
  have hfind : (selectable_devices devices).find? (fun p => ci < p.1) = none := by
    rw [List.find?_eq_none]
    intro q hq
    obtain ⟨hq1, hq2⟩ := mem_selectable_devices.mp hq
    obtain ⟨hlt', hget'⟩ := List.getElem?_eq_some.mp hq1
    rw [decide_eq_true_eq]
    exact hafter _ hlt' (by rw [List.get_eq_getElem, hget']; exact hq2)
  have hzero : (selectable_devices devices).get ⟨0, hlen⟩ = (j, devices.get ⟨j, hj⟩) := by
    rw [List.mem_iff_get] at hjmem
    obtain ⟨⟨m, hm⟩, hmget⟩ := hjmem
    cases Nat.eq_zero_or_pos m with
    | inl hm0 =>
      rw [← hmget]
      exact get_idx_congr _ hlen hm hm0.symm
    | inr hmpos =>
      exfalso
      have hq := mem_selectable_devices.mp
        (List.get_mem (selectable_devices devices) 0 hlen)
      obtain ⟨hq1, hq2⟩ := hq
      obtain ⟨hlt', hget'⟩ := List.getElem?_eq_some.mp hq1
      have hfstlt : ((selectable_devices devices).get ⟨0, hlen⟩).1 < j := by
        have := sel_fst_strict devices 0 m hlen hm hmpos
        rw [hmget] at this
        exact this
      have := hmin _ hlt' (by rw [List.get_eq_getElem, hget']; exact hq2)
      omega
  unfold next_from_index
  simp only [hempty, Bool.false_eq_true, if_false, hfind, Option.orElse,
    head?_eq_get_zero _ hlen, Option.map, hzero]

/-- Devices at two distinct positions of the selectable enumeration are
distinct devices whenever ids are pairwise distinct. -/
lemma sel_snd_inj (devices : List AudioDevice)
    (hnd : (devices.map (fun d => d.id)).Nodup) (m1 m2 : Nat)
    (h1 : m1 < (selectable_devices devices).length)
    (h2 : m2 < (selectable_devices devices).length)
    (heq : ((selectable_devices devices).get ⟨m1, h1⟩).2
      = ((selectable_devices devices).get ⟨m2, h2⟩).2) : m1 = m2 := by
  by_contra hne
  have hfstne : ((selectable_devices devices).get ⟨m1, h1⟩).1
      ≠ ((selectable_devices devices).get ⟨m2, h2⟩).1 := by
    rcases Nat.lt_or_ge m1 m2 with hlt | hge
    · exact Nat.ne_of_lt (sel_fst_strict devices m1 m2 h1 h2 hlt)
    · have hlt : m2 < m1 := by omega
      exact (Nat.ne_of_lt (sel_fst_strict devices m2 m1 h2 h1 hlt)).symm
  obtain ⟨ha1, _⟩ := mem_selectable_devices.mp
    (List.get_mem (selectable_devices devices) m1 h1)
  obtain ⟨ha2, _⟩ := mem_selectable_devices.mp
    (List.get_mem (selectable_devices devices) m2 h2)
  obtain ⟨hl1, hg1⟩ := List.getElem?_eq_some.mp ha1
  obtain ⟨hl2, hg2⟩ := List.getElem?_eq_some.mp ha2
  have hml1 : ((selectable_devices devices).get ⟨m1, h1⟩).1
      < (devices.map (fun d => d.id)).length := by
    rw [List.length_map]
    exact hl1
  have hml2 : ((selectable_devices devices).get ⟨m2, h2⟩).1
      < (devices.map (fun d => d.id)).length := by
    rw [List.length_map]
    exact hl2
  have hideq : (devices.map (fun d => d.id))[((selectable_devices devices).get ⟨m1, h1⟩).1]
      = (devices.map (fun d => d.id))[((selectable_devices devices).get ⟨m2, h2⟩).1] := by
    rw [List.getElem_map, List.getElem_map, hg1, hg2, heq]
  exact hfstne (hnd.getElem_inj_iff.mp hideq)

/-- find? over key-value pairs answers a matching head. -/
lemma find?_key_cons_pos (q : String × Bool) (k : String) (t : List (String × Bool))
    (h : (q.1 == k) = true) :
    List.find? (fun p => p.1 == k) (q :: t) = some q :=
  List.find?_cons_of_pos t h

/-- find? over key-value pairs skips a non-matching head. -/
lemma find?_key_cons_ne (q : String × Bool) (k : String) (t : List (String × Bool))
    (h : (q.1 == k) = false) :
    List.find? (fun p => p.1 == k) (q :: t) = List.find? (fun p => p.1 == k) t :=
  List.find?_cons_of_neg t (by simp [h])

/-- Lookup after inserting a key answers the inserted value. -/
lemma hmGet_hmInsert_self (m : List (String × Bool)) (k : String) (v : Bool) :
    hmGet (hmInsert m k v) k = some v := by
  induction m with
  | nil =>
    unfold hmInsert hmGet
    rw [find?_key_cons_pos _ _ _ (beq_self_eq_true k)]
    rfl
  | cons p rest ih =>
    by_cases hp : (p.1 == k) = true
    · unfold hmInsert hmGet
      rw [if_pos hp, find?_key_cons_pos _ _ _ (beq_self_eq_true k)]
      rfl
    · unfold hmInsert hmGet
      rw [if_neg hp, find?_key_cons_ne _ _ _ (by simp [hp])]
      exact ih

/-- Lookup of a different key is unchanged by an insert. -/
lemma hmGet_hmInsert_ne (m : List (String × Bool)) (k k' : String) (v : Bool)
    (h : (k == k') = false) : hmGet (hmInsert m k v) k' = hmGet m k' := by
  induction m with
  | nil =>
    unfold hmInsert hmGet
    rw [find?_key_cons_ne _ _ _ h]
  | cons p rest ih =>
    by_cases hp : (p.1 == k) = true
    · unfold hmInsert hmGet
      rw [if_pos hp, find?_key_cons_ne _ _ _ h,
        find?_key_cons_ne _ _ _ (by rw [eq_of_beq hp]; exact h)]
    · by_cases hq : (p.1 == k') = true
      · unfold hmInsert hmGet
        rw [if_neg hp, find?_key_cons_pos _ _ _ hq, find?_key_cons_pos _ _ _ hq]
      · unfold hmInsert hmGet
        rw [if_neg hp, find?_key_cons_ne _ _ _ (by simp [hq]),
          find?_key_cons_ne _ _ _ (by simp [hq])]
        exact ih

/-- Folding inserts over pairs with pairwise-distinct keys: the lookup
answers the value of the matching pair, or falls through to the
accumulator. -/
lemma hmGet_foldl_insert (l : List (String × Bool)) (acc : List (String × Bool))
    (k : String) (hnd : (l.map Prod.fst).Nodup) :
    hmGet (l.foldl (fun m p => hmInsert m p.1 p.2) acc) k
      = ((l.find? (fun p => p.1 == k)).map Prod.snd).orElse (fun _ => hmGet acc k) := by
  induction l generalizing acc with
  | nil => simp [Option.orElse]
  | cons p t ih =>
    rw [List.map_cons, List.nodup_cons] at hnd
    rw [List.foldl_cons, ih _ hnd.2]
    by_cases hpk : (p.1 == k) = true
    · have hkey : p.1 = k := eq_of_beq hpk
      have htfind : t.find? (fun q => q.1 == k) = none := by
        rw [List.find?_eq_none]
        intro q hq hcon
        have : q.1 = k := eq_of_beq hcon
        exact hnd.1 (by rw [hkey, ← this]; exact List.mem_map_of_mem _ hq)
      rw [htfind, find?_key_cons_pos _ _ _ hpk]
      simp only [Option.map, Option.orElse]
      rw [← hkey, hmGet_hmInsert_self]
    · rw [find?_key_cons_ne _ _ _ (by simp [hpk])]
      cases htfind : t.find? (fun q => q.1 == k) with
      | some q => simp only [htfind, Option.map, Option.orElse]
      | none =>
        simp only [htfind, Option.map, Option.orElse]
        exact hmGet_hmInsert_ne acc p.1 k p.2 (by simp [hpk])

/-- In the saved pair list of a device list with pairwise-distinct ids,
the pair of a member device is the first (and only) pair with its key. -/
lemma save_pairs_find (devices : List AudioDevice)
    (hnd : (devices.map (fun d => d.id)).Nodup) (d : AudioDevice) (hd : d ∈ devices) :
    (devices.map (fun x => (x.id, x.selectable))).find? (fun p => p.1 == d.id)
      = some (d.id, d.selectable) := by
  induction devices with
  | nil => simp at hd
  | cons a t ih =>
    rw [List.map_cons, List.nodup_cons] at hnd
    rw [List.map_cons]
    by_cases ha : (a.id == d.id) = true
    · have haid : a.id = d.id := eq_of_beq ha
      cases List.mem_cons.mp hd with
      | inl hda =>
        rw [← hda]
        rw [find?_key_cons_pos _ _ _ (beq_self_eq_true d.id)]
      | inr hdt =>
        exfalso
        exact hnd.1 (by rw [haid]; exact List.mem_map_of_mem _ hdt)
    · have hdt : d ∈ t := by
        cases List.mem_cons.mp hd with
        | inl hda => rw [hda] at ha; simp [beq_self_eq_true] at ha
        | inr h => exact h
      rw [find?_key_cons_ne _ _ _ (by simp [ha])]
      exact ih hnd.2 hdt

/-- Lookup in the saved map of a device list with pairwise-distinct ids
answers exactly the selectable flag of the member device. -/
lemma hmGet_save (devices : List AudioDevice)
    (hnd : (devices.map (fun d => d.id)).Nodup) (d : AudioDevice) (hd : d ∈ devices) :
    hmGet (hmOfList (devices.map (fun x => (x.id, x.selectable)))) d.id
      = some d.selectable := by
  unfold hmOfList
  have hkeys : ((devices.map (fun x => (x.id, x.selectable))).map Prod.fst).Nodup := by
    rw [List.map_map]
    exact hnd
  rw [hmGet_foldl_insert _ _ _ hkeys, save_pairs_find devices hnd d hd]
  simp [Option.orElse]

/-- Bits of a quotient by a power of two are shifted bits of the
original number. -/
lemma testBit_div_pow (n x i : Nat) : (x / 2 ^ n).testBit i = x.testBit (n + i) := by
  induction n generalizing x with
  | zero => simp
  | succ n ih =>
    have hdiv : x / 2 ^ (n + 1) = x / 2 / 2 ^ n := by
      rw [Nat.div_div_eq_div_mul, ← Nat.pow_succ']
    rw [hdiv, ih, ← Nat.testBit_add_one]
    congr 1
    omega

/-- Truncation to a power of two distributes over xor. -/
lemma xor_mod_two_pow (m a b : Nat) : (a ^^^ b) % 2 ^ m = a % 2 ^ m ^^^ b % 2 ^ m := by
  apply Nat.eq_of_testBit_eq
  intro i
  rw [Nat.testBit_mod_two_pow, Nat.testBit_xor, Nat.testBit_xor,
    Nat.testBit_mod_two_pow, Nat.testBit_mod_two_pow]
  by_cases h : i < m
  · simp [h]
  · simp [h]

/-- Division by a power of two distributes over xor. -/
lemma xor_div_two_pow (m a b : Nat) : (a ^^^ b) / 2 ^ m = a / 2 ^ m ^^^ b / 2 ^ m := by
  induction m generalizing a b with
  | zero => simp
  | succ m ih =>
    have hsplit : ∀ x : Nat, x / 2 ^ (m + 1) = x / 2 ^ m / 2 := by
      intro x
      rw [Nat.div_div_eq_div_mul, Nat.pow_succ]
    rw [hsplit, hsplit, hsplit, ih, Nat.xor_div_two]

/-- Left commutation of xor, for normalization. -/
lemma xor_left_comm (a b c : Nat) : a ^^^ (b ^^^ c) = b ^^^ (a ^^^ c) := by
  rw [← Nat.xor_assoc, Nat.xor_comm a b, Nat.xor_assoc]

/-- One CRC bit step commutes with xor by an even number: the even part
just shifts down past the polynomial branch. -/
lemma crcBitStep_xor_even (a e : Nat) (he : e % 2 = 0) :
    crcBitStep (a ^^^ e) = crcBitStep a ^^^ e / 2 := by
  have hpar : (a ^^^ e) % 2 = a % 2 := by
    have h2 : (2 : Nat) = 2 ^ 1 := by norm_num
    rw [h2, xor_mod_two_pow 1 a e, ← h2, he, Nat.xor_zero]
  unfold crcBitStep
  rw [hpar]
  by_cases ha : a % 2 = 1
  · rw [if_pos ha, if_pos ha, Nat.xor_div_two]
    rw [Nat.xor_assoc, Nat.xor_comm (e / 2) crcPoly, ← Nat.xor_assoc]
  · rw [if_neg ha, if_neg ha, Nat.xor_div_two]

/-- The part of the register above the m lowest bits passes unchanged
through m CRC bit steps and comes out xored at the bottom. -/
lemma crcSteps_xor_high : ∀ (m a h : Nat), crcSteps m (a ^^^ 2 ^ m * h) = crcSteps m a ^^^ h := by
  intro m
  induction m with
  | zero =>
    intro a h
    simp [crcSteps]
  | succ m ih =>
    intro a h
    have he : (2 ^ (m + 1) * h) % 2 = 0 := by
      have h2 : 2 ^ (m + 1) * h = 2 * (2 ^ m * h) := by ring
      rw [h2]
      omega
    have hdiv : (2 ^ (m + 1) * h) / 2 = 2 ^ m * h := by
      have h2 : 2 ^ (m + 1) * h = 2 * (2 ^ m * h) := by ring
      rw [h2]
      omega
    show crcSteps m (crcBitStep (a ^^^ 2 ^ (m + 1) * h)) = crcSteps m (crcBitStep a) ^^^ h
    rw [crcBitStep_xor_even _ _ he, hdiv, ih]

/-- Every number splits as its low bits xored with its shifted high
bits. -/
lemma mod_xor_div_mul (m x : Nat) : x % 2 ^ m ^^^ 2 ^ m * (x / 2 ^ m) = x := by
  apply Nat.eq_of_testBit_eq
  intro i
  rw [Nat.testBit_xor, Nat.testBit_mod_two_pow, Nat.testBit_mul_pow_two, testBit_div_pow]
  by_cases h : i < m
  · have h2 : ¬ i ≥ m := by omega
    simp [h, h2]
  · have h2 : i ≥ m := by omega
    have h3 : m + (i - m) = i := by omega
    simp [h, h2, h3]

/-- The published CRC-16/ARC table holds exactly the eight-step values of
each byte. -/
lemma arcTable_correct : ∀ i < 256, arcTable.getD i 0 = crcSteps 8 i := by decide

/-- One byte of the bitwise CRC equals one step of the table-driven
form. -/
lemma crcByte_eq_table (crc b : Nat) (hb : b < 256) :
    crcByte crc b = arcTable.getD ((crc ^^^ b) % 256) 0 ^^^ crc / 256 := by
  unfold crcByte
  have h16 : (256 : Nat) = 2 ^ 8 := by norm_num
  have hdiv : (crc ^^^ b) / 256 = crc / 256 := by
    rw [h16, xor_div_two_pow 8 crc b,
      Nat.div_eq_of_lt (show b < 2 ^ 8 by rw [← h16]; exact hb), Nat.xor_zero]
  calc crcSteps 8 (crc ^^^ b)
      = crcSteps 8 ((crc ^^^ b) % 2 ^ 8 ^^^ 2 ^ 8 * ((crc ^^^ b) / 2 ^ 8)) := by
        rw [mod_xor_div_mul]
    _ = crcSteps 8 ((crc ^^^ b) % 2 ^ 8) ^^^ (crc ^^^ b) / 2 ^ 8 :=
        crcSteps_xor_high 8 _ _
    _ = arcTable.getD ((crc ^^^ b) % 256) 0 ^^^ crc / 256 := by
        rw [← h16, arcTable_correct _ (Nat.mod_lt _ (by norm_num)), hdiv]

/-- The bitwise and the table-driven CRC folds agree on byte inputs, for
every starting register value. -/
lemma foldl_crcByte_eq_table (bytes : List Nat) :
    ∀ init, (∀ b ∈ bytes, b < 256) →
      bytes.foldl crcByte init
        = bytes.foldl (fun crc b => arcTable.getD ((crc ^^^ b) % 256) 0 ^^^ crc / 256) init := by
  induction bytes with
  | nil =>
    intro init _
    rfl
  | cons b t ih =>
    intro init hb
    rw [List.foldl_cons, List.foldl_cons,
      crcByte_eq_table init b (hb b (List.mem_cons_self b t)),
      ih _ (fun x hx => hb x (List.mem_cons_of_mem b hx))]

/-- The bitwise CRC-16/ARC agrees with the independent table-driven
implementation on every byte list. -/
lemma crc16_arc_eq_table (bytes : List Nat) (hb : ∀ b ∈ bytes, b < 256) :
    crc16_arc bytes = crc16_arc_table bytes :=
  foldl_crcByte_eq_table bytes 0 hb

/-- Every scalar value of a character is below 0x110000. -/
lemma char_toNat_lt (c : Char) : c.toNat < 1114112 := by
  have h := c.valid
  rcases h with h | h
  · have h1 : c.val.toNat < 55296 := h
    simp only [Char.toNat]
    omega
  · exact h.2

/-- Every UTF-8 byte of a character is an actual byte. -/
lemma charUtf8Bytes_lt (c : Char) : ∀ b ∈ charUtf8Bytes c, b < 256 := by
  intro b hb
  have hc := char_toNat_lt c
  unfold charUtf8Bytes at hb
  by_cases h1 : c.toNat < 128
  · simp [h1] at hb
    omega
  · by_cases h2 : c.toNat < 2048
    · simp [h1, h2] at hb
      rcases hb with rfl | rfl <;> omega
    · by_cases h3 : c.toNat < 65536
      · simp [h1, h2, h3] at hb
        rcases hb with rfl | rfl | rfl <;> omega
      · simp [h1, h2, h3] at hb
        rcases hb with rfl | rfl | rfl | rfl <;> omega

/-- Every UTF-8 byte of a string is an actual byte. -/
lemma strBytes_lt (s : String) : ∀ b ∈ strBytes s, b < 256 := by
  intro b hb
  unfold strBytes at hb
  rw [List.mem_flatMap] at hb
  obtain ⟨c, _, hbc⟩ := hb
  exact charUtf8Bytes_lt c b hbc

/-- One CRC bit step keeps the register inside sixteen bits. -/
lemma crcBitStep_lt (crc : Nat) (h : crc < 65536) : crcBitStep crc < 65536 := by
  unfold crcBitStep
  have h16 : (65536 : Nat) = 2 ^ 16 := by norm_num
  by_cases hp : crc % 2 = 1
  · rw [if_pos hp, h16]
    apply Nat.xor_lt_two_pow
    · rw [← h16]
      omega
    · rw [← h16]
      decide
  · rw [if_neg hp]
    omega

/-- Iterated CRC bit steps keep the register inside sixteen bits. -/
lemma crcSteps_lt : ∀ (m crc : Nat), crc < 65536 → crcSteps m crc < 65536 := by
  intro m
  induction m with
  | zero =>
    intro crc h
    exact h
  | succ m ih =>
    intro crc h
    exact ih _ (crcBitStep_lt crc h)

/-- Folding a byte keeps the CRC register inside sixteen bits. -/
lemma crcByte_lt (crc b : Nat) (hc : crc < 65536) (hb : b < 256) :
    crcByte crc b < 65536 := by
  unfold crcByte
  apply crcSteps_lt
  have h16 : (65536 : Nat) = 2 ^ 16 := by norm_num
  rw [h16]
  apply Nat.xor_lt_two_pow
  · rw [← h16]
    exact hc
  · rw [← h16]
    omega

/-- The CRC fold of a byte list stays inside sixteen bits. -/
lemma foldl_crcByte_lt (bytes : List Nat) :
    ∀ init, init < 65536 → (∀ b ∈ bytes, b < 256) →
      bytes.foldl crcByte init < 65536 := by
  induction bytes with
  | nil =>
    intro init h _
    exact h
  | cons b t ih =>
    intro init h hb
    rw [List.foldl_cons]
    exact ih _ (crcByte_lt init b h (hb b (List.mem_cons_self b t)))
      (fun x hx => hb x (List.mem_cons_of_mem b hx))

/-- CRC-16/ARC of byte input is a sixteen-bit value. -/
lemma crc16_arc_lt (bytes : List Nat) (hb : ∀ b ∈ bytes, b < 256) :
    crc16_arc bytes < 65536 :=
  foldl_crcByte_lt bytes 0 (by norm_num) hb

/-- The menu id of every device id is a sixteen-bit value, matching the
u16 return of device_id_to_menu_id. -/
lemma device_id_to_menu_id_lt (s : String) : device_id_to_menu_id s < 65536 :=
  crc16_arc_lt _ (strBytes_lt s)

/-- Every device answered by next_device is a selectable member of the
list. -/
lemma next_device_mem (devices : List AudioDevice) (current : String) (d : AudioDevice)
    (h : next_device devices current = some d) : d ∈ devices ∧ d.selectable = true := by
  unfold next_device at h
  obtain ⟨i, hmem⟩ := next_from_index_eq_some_mem h
  obtain ⟨h1, h2⟩ := mem_selectable_devices.mp hmem
  exact ⟨List.getElem?_mem h1, h2⟩

/-- The device produced at position j by apply_device_selectable_state is
the original device, with the selectable flag overwritten when its id is a
key of the saved map. -/
lemma apply_get (devices : List AudioDevice) (saved : List (String × Bool)) (j : Nat)
    (hj : j < devices.length)
    (hj2 : j < (apply_device_selectable_state devices saved).length) :
    (apply_device_selectable_state devices saved).get ⟨j, hj2⟩
      = match hmGet saved (devices.get ⟨j, hj⟩).id with
        | some b => { devices.get ⟨j, hj⟩ with selectable := b }
        | none => devices.get ⟨j, hj⟩ := by
  unfold apply_device_selectable_state at hj2 ⊢
  rw [List.get_eq_getElem, List.getElem_map]
  rfl

/-- Second components of a pair list at provably equal positions agree. -/
lemma sel_get_snd_congr (l : List (Nat × AudioDevice)) {i1 i2 : Nat}
    (h1 : i1 < l.length) (h2 : i2 < l.length) (h : i1 = i2) :
    (l.get ⟨i1, h1⟩).2 = (l.get ⟨i2, h2⟩).2 :=
  congrArg Prod.snd (get_idx_congr l h1 h2 h)

/-- C1: next filters to selectable devices and answers none exactly when
that set is empty; otherwise it answers the first selectable device whose
enumeration index lies strictly after the current index, wrapping to the
first selectable device of the list when no selectable device lies after
it; for [A(selectable), B(unselectable), C(selectable)] with current A it
answers C, and with current C and all selectable it wraps to A. -/
theorem C1_next_device_selection :
    (∀ devices current, next_device devices current = none
      ↔ ∀ d ∈ devices, d.selectable = false)
    ∧ (∀ devices current d, next_device devices current = some d →
        d ∈ devices ∧ d.selectable = true)
    ∧ (∀ devices current j (hj : j < devices.length),
        (devices.get ⟨j, hj⟩).selectable = true →
        current_index devices current < j →
        (∀ j' (hj' : j' < devices.length), current_index devices current < j' →
          (devices.get ⟨j', hj'⟩).selectable = true → j ≤ j') →
        next_device devices current = some (devices.get ⟨j, hj⟩))
    ∧ (∀ devices current j (hj : j < devices.length),
        (devices.get ⟨j, hj⟩).selectable = true →
        (∀ j' (hj' : j' < devices.length),
          (devices.get ⟨j', hj'⟩).selectable = true →
          ¬ current_index devices current < j') →
        (∀ j' (hj' : j' < devices.length),
          (devices.get ⟨j', hj'⟩).selectable = true → j ≤ j') →
        next_device devices current = some (devices.get ⟨j, hj⟩))
    ∧ next_device [devA, devB, devC] "id-a" = some devC
    ∧ next_device [devA, ⟨"id-b", "Device B", true, 0⟩, devC] "id-c" = some devA := by
  refine ⟨?_, ?_, ?_, ?_, by decide, by decide⟩
  · intro devices current
    unfold next_device
    rw [next_from_index_eq_none_iff, selectable_devices_eq_nil_iff]
  · intro devices current d h
    exact next_device_mem devices current d h
  · intro devices current j hj hsel hgt hmin
    exact next_from_index_first_after devices _ j hj hsel hgt hmin
  · intro devices current j hj hsel hafter hmin
    exact next_from_index_wrap devices _ j hj hsel hafter hmin

/-- Witness for C1 at a concrete input: in [A, B(unselectable), C] with
current A, index 2 is selectable, lies after index 0, and is least such,
so next answers C. -/
theorem C1_next_device_selection_witness :
    next_device [devA, devB, devC] "id-a"
      = some (([devA, devB, devC] : List AudioDevice).get ⟨2, by decide⟩) :=
  C1_next_device_selection.2.2.1 [devA, devB, devC] "id-a" 2 (by decide)
    (by decide) (by decide) (by decide)

/-- C2: over a device list with pairwise-distinct ids containing a
selectable device, next always answers some device, and iterating next
from each answered device walks a single cycle: the first k steps are
pairwise distinct, cover every selectable device, stay inside the
selectable members, and step k returns to the start, where k is the
number of selectable devices. -/
theorem C2_rotation_single_cycle (devices : List AudioDevice) (current : String)
    (hnd : (devices.map (fun d => d.id)).Nodup)
    (hsel : ∃ d ∈ devices, d.selectable = true) :
    ∃ d1, next_device devices current = some d1 ∧
      ∃ t : Nat → AudioDevice, t 0 = d1
        ∧ (∀ m, next_device devices (t m).id = some (t (m + 1)))
        ∧ (∀ m1 m2, m1 < (selectable_devices devices).length →
            m2 < (selectable_devices devices).length → t m1 = t m2 → m1 = m2)
        ∧ (∀ d ∈ devices, d.selectable = true →
            ∃ m, m < (selectable_devices devices).length ∧ t m = d)
        ∧ (∀ m, t m ∈ devices ∧ (t m).selectable = true)
        ∧ t (selectable_devices devices).length = t 0 := by
  obtain ⟨d0, hd0mem, hd0sel⟩ := hsel
  have hne : selectable_devices devices ≠ [] := by
    intro hcon
    have := (selectable_devices_eq_nil_iff devices).mp hcon d0 hd0mem
    rw [hd0sel] at this
    cases this
  obtain ⟨j1, hj1, hfirst⟩ :=
    next_from_index_some_of_nonempty devices (current_index devices current) hne
  have hk0 : 0 < (selectable_devices devices).length := Nat.zero_lt_of_lt hj1
  refine ⟨((selectable_devices devices).get ⟨j1, hj1⟩).2, ?_, ?_⟩
  · unfold next_device
    exact hfirst
  · refine ⟨fun m => ((selectable_devices devices).get
      ⟨(j1 + m) % (selectable_devices devices).length, Nat.mod_lt _ hk0⟩).2,
      ?_, ?_, ?_, ?_, ?_, ?_⟩
    · exact sel_get_snd_congr _ _ hj1
        (by rw [Nat.add_zero]; exact Nat.mod_eq_of_lt hj1)
    · intro m
      rw [next_device_at_sel_pos devices hnd
        ((j1 + m) % (selectable_devices devices).length) (Nat.mod_lt _ hk0)]
      exact congrArg some (sel_get_snd_congr _ _ _
        (by rw [Nat.mod_add_mod, Nat.add_assoc]))
    · intro m1 m2 hm1 hm2 heq
      have hmod := sel_snd_inj devices hnd _ _ (Nat.mod_lt _ hk0) (Nat.mod_lt _ hk0) heq
      have h1 : m1 % (selectable_devices devices).length
          = m2 % (selectable_devices devices).length :=
        Nat.ModEq.add_left_cancel (Nat.ModEq.refl j1) hmod
      rw [Nat.mod_eq_of_lt hm1, Nat.mod_eq_of_lt hm2] at h1
      exact h1
    · intro d hd hdsel
      obtain ⟨i, hi, hig⟩ := List.mem_iff_getElem.mp hd
      have hmemsel : (i, d) ∈ selectable_devices devices := by
        rw [mem_selectable_devices]
        exact ⟨List.getElem?_eq_some.mpr ⟨hi, hig⟩, hdsel⟩
      rw [List.mem_iff_get] at hmemsel
      obtain ⟨⟨p, hp⟩, hpget⟩ := hmemsel
      have hidx : (j1 + (p + (selectable_devices devices).length - j1)
          % (selectable_devices devices).length) % (selectable_devices devices).length
          = p := by
        rw [Nat.add_comm j1, Nat.mod_add_mod]
        have harith : p + (selectable_devices devices).length - j1 + j1
            = p + (selectable_devices devices).length := by omega
        rw [harith, Nat.add_mod_right]
        exact Nat.mod_eq_of_lt hp
      refine ⟨(p + (selectable_devices devices).length - j1)
        % (selectable_devices devices).length, Nat.mod_lt _ hk0, ?_⟩
      have hsnd := sel_get_snd_congr (selectable_devices devices)
        (Nat.mod_lt _ hk0) hp hidx
      exact hsnd.trans (congrArg Prod.snd hpget)
    · intro m
      obtain ⟨h1, h2⟩ := mem_selectable_devices.mp
        (List.get_mem (selectable_devices devices)
          ((j1 + m) % (selectable_devices devices).length) (Nat.mod_lt _ hk0))
      exact ⟨List.getElem?_mem h1, h2⟩
    · exact sel_get_snd_congr _ _ _ (by rw [Nat.add_mod_right, Nat.add_zero])

/-- Witness for C2 at a concrete input: the scenario list with distinct
ids and a selectable device. -/
theorem C2_rotation_single_cycle_witness :
    ∃ d1, next_device [devA, devB, devC] "id-a" = some d1 ∧
      ∃ t : Nat → AudioDevice, t 0 = d1
        ∧ (∀ m, next_device [devA, devB, devC] (t m).id = some (t (m + 1)))
        ∧ (∀ m1 m2, m1 < (selectable_devices [devA, devB, devC]).length →
            m2 < (selectable_devices [devA, devB, devC]).length → t m1 = t m2 → m1 = m2)
        ∧ (∀ d ∈ [devA, devB, devC], d.selectable = true →
            ∃ m, m < (selectable_devices [devA, devB, devC]).length ∧ t m = d)
        ∧ (∀ m, t m ∈ [devA, devB, devC] ∧ (t m).selectable = true)
        ∧ t (selectable_devices [devA, devB, devC]).length = t 0 :=
  C2_rotation_single_cycle [devA, devB, devC] "id-a" (by decide)
    ⟨devA, by decide, by decide⟩

/-- C3: after save(devices) succeeds, load() answers the saved map, and
applying it to a fresh enumeration with the same ids reproduces the exact
selectable flag of every device present at save time; concretely, saving
{A: true, B: false} and applying the reloaded map to fresh [A, B] yields
selectable flags [true, false]. -/
theorem C3_save_load_apply_roundtrip :
    (∀ (devices fresh : List AudioDevice) (m : List (String × Bool)),
      (devices.map (fun d => d.id)).Nodup →
      load_device_selectable_state (save_device_selectable_state devices) = Except.ok m →
      ∀ d ∈ devices, ∀ j (hj : j < fresh.length)
        (hj2 : j < (apply_device_selectable_state fresh m).length),
        (fresh.get ⟨j, hj⟩).id = d.id →
        ((apply_device_selectable_state fresh m).get ⟨j, hj2⟩).selectable = d.selectable)
    ∧ ∃ m, load_device_selectable_state (save_device_selectable_state [devA, devB])
        = Except.ok m
      ∧ (apply_device_selectable_state
          [⟨"id-a", "Device A", false, 0⟩, ⟨"id-b", "Device B", true, 0⟩] m).map
            (fun d => d.selectable) = [true, false] := by
  constructor
  · intro devices fresh m hnd hload d hd j hj hj2 hid
    have hm : m = hmOfList (devices.map (fun x => (x.id, x.selectable))) := by
      unfold save_device_selectable_state load_device_selectable_state at hload
      exact (Except.ok.inj hload).symm
    rw [apply_get fresh m j hj hj2, hid, hm, hmGet_save devices hnd d hd]
  · exact ⟨_, rfl, by decide⟩

/-- Witness for C3 at a concrete input: save [A, B], reload, apply to a
fresh list with the same ids; position 0 recovers the saved flag of A. -/
theorem C3_save_load_apply_roundtrip_witness :
    ((apply_device_selectable_state [devA, devB]
        (hmOfList ([devA, devB].map (fun x => (x.id, x.selectable))))).get
          ⟨0, by decide⟩).selectable = devA.selectable :=
  C3_save_load_apply_roundtrip.1 [devA, devB] [devA, devB] _ (by decide) rfl
    devA (by decide) 0 (by decide) (by decide) rfl

/-- C4 counterexample: the codec does produce both reserved sentinel
values on concrete identifiers, so they are not excluded from its output
range. -/
theorem C4_counterexample :
    device_id_to_menu_id "cCi" = POPUP_EXIT_ID
    ∧ device_id_to_menu_id "gGj" = POPUP_CURRENT_DEVICE_ID := by decide

/-- C4 amended: the codec is a plain CRC-16/ARC over the full sixteen-bit
range; identifiers mapping to the reserved menu ids 1 and 2 exist (the
source comments that such collisions are possible but unlikely), and every
codec output fits in sixteen bits. -/
theorem C4_reserved_values_not_excluded :
    (∃ s, device_id_to_menu_id s = POPUP_EXIT_ID)
    ∧ (∃ s, device_id_to_menu_id s = POPUP_CURRENT_DEVICE_ID)
    ∧ ∀ s, device_id_to_menu_id s < 65536 :=
  ⟨⟨"cCi", by decide⟩, ⟨"gGj", by decide⟩, fun s => device_id_to_menu_id_lt s⟩

/-- C5: the menu-id codec is a pure function, so repeated calls agree; its
value is the CRC-16/ARC of the UTF-8 bytes of the identifier, agreeing
bit-for-bit with the independent table-driven implementation of that
checksum; it fits in sixteen bits; and it matches the published CRC-16/ARC
check value 0xBB3D on "123456789". -/
theorem C5_codec_deterministic_crc16_arc :
    (∀ s : String, device_id_to_menu_id s = device_id_to_menu_id s)
    ∧ (∀ s : String, device_id_to_menu_id s = crc16_arc_table (strBytes s))
    ∧ (∀ s : String, device_id_to_menu_id s < 65536)
    ∧ crc16_arc (strBytes "123456789") = 47933 :=
  ⟨fun _ => rfl, fun s => crc16_arc_eq_table _ (strBytes_lt s),
    fun s => device_id_to_menu_id_lt s, by decide⟩

/-- C6: when the current id matches no enumerated device, the rotation
engine treats index 0 as current (unwrap_or(0)), proceeds exactly as a
rotation from index 0, and still answers some device whenever a selectable
device exists, instead of failing. -/
theorem C6_fallback_to_index_zero (devices : List AudioDevice) (current : String)
    (h : ∀ d ∈ devices, (d.id == current) = false) :
    current_index devices current = 0
    ∧ next_device devices current = next_from_index devices 0
    ∧ ((∃ d ∈ devices, d.selectable = true) → ∃ d, next_device devices current = some d) := by
  have h0 := current_index_of_not_found h
  refine ⟨h0, ?_, ?_⟩
  · unfold next_device
    rw [h0]
  · intro hne
    obtain ⟨d0, hd0, hd0sel⟩ := hne
    have hnnil : selectable_devices devices ≠ [] := by
      intro hcon
      have := (selectable_devices_eq_nil_iff devices).mp hcon d0 hd0
      rw [hd0sel] at this
      cases this
    obtain ⟨j, hj, hsome⟩ := next_from_index_some_of_nonempty devices
      (current_index devices current) hnnil
    exact ⟨_, by unfold next_device; exact hsome⟩

/-- Witness for C6 at a concrete input: an id matching no device. -/
theorem C6_fallback_to_index_zero_witness :
    current_index [devA, devB, devC] "id-missing" = 0
    ∧ next_device [devA, devB, devC] "id-missing" = next_from_index [devA, devB, devC] 0
    ∧ ((∃ d ∈ [devA, devB, devC], d.selectable = true) →
        ∃ d, next_device [devA, devB, devC] "id-missing" = some d) :=
  C6_fallback_to_index_zero [devA, devB, devC] "id-missing" (by decide)

/-- C7 counterexample: a menu id matching no device (3) and the menu id of
device A (64384) both make menu_selection return the same unit success,
even though the second call flips state and the first does not, so the
not-found outcome is not distinguishable from the found-and-flipped
outcome via the return. -/
theorem C7_counterexample :
    (menu_selection [devA] 3).2 = (menu_selection [devA] 64384).2
    ∧ (menu_selection [devA] 64384).1 ≠ [devA]
    ∧ (menu_selection [devA] 3).1 = [devA] :=
  ⟨rfl, by decide, by decide⟩

/-- C7 amended: toggling a menu id that matches no device leaves every
device unchanged and returns success; the returned value is the same unit
success as in the found-and-flipped case, so the two outcomes are not
distinguishable through the return value, only through the state. -/
theorem C7_unknown_toggle_noop (devices : List AudioDevice) (mid : Nat)
    (h : ∀ d ∈ devices, device_id_to_menu_id d.id ≠ mid) :
    (menu_selection devices mid).1 = devices
    ∧ (menu_selection devices mid).2 = Except.ok ()
    ∧ ∀ (devices' : List AudioDevice) (mid' : Nat),
        (menu_selection devices' mid').2 = Except.ok () := by
  have hall : ∀ (devices' : List AudioDevice) (mid' : Nat),
      (menu_selection devices' mid').2 = Except.ok () := by
    intro devices' mid'
    unfold menu_selection
    by_cases hexit : mid' = POPUP_EXIT_ID
    · rw [if_pos hexit]
    · rw [if_neg hexit]
      cases devices'.findIdx? (fun d => mid' == device_id_to_menu_id d.id) with
      | none => rfl
      | some j => rfl
  refine ⟨?_, hall devices mid, hall⟩
  unfold menu_selection
  by_cases hexit : mid = POPUP_EXIT_ID
  · rw [if_pos hexit]
  · rw [if_neg hexit]
    have hfind : devices.findIdx? (fun d => mid == device_id_to_menu_id d.id) = none := by
      rw [List.findIdx?_eq_none_iff]
      intro d hd
      exact beq_eq_false_iff_ne.mpr (fun hc => h d hd hc.symm)
    rw [hfind]

/-- Witness for C7 at a concrete input: menu id 3 matches no device of
[A]. -/
theorem C7_unknown_toggle_noop_witness :
    (menu_selection [devA] 3).1 = [devA]
    ∧ (menu_selection [devA] 3).2 = Except.ok ()
    ∧ ∀ (devices' : List AudioDevice) (mid' : Nat),
        (menu_selection devices' mid').2 = Except.ok () :=
  C7_unknown_toggle_noop [devA] 3 (by decide)

/-- C8: load answers the empty map, and no error, when no persisted file
exists; parsed content is answered as is; and an error is answered only
for malformed content, never for absence. -/
theorem C8_load_absent_is_empty :
    load_device_selectable_state ConfigFile.absent = Except.ok []
    ∧ (∀ m, load_device_selectable_state (ConfigFile.valid m) = Except.ok m)
    ∧ ∀ f e, load_device_selectable_state f = Except.error e →
        f = ConfigFile.malformed := by
  refine ⟨rfl, fun m => rfl, ?_⟩
  intro f e h
  cases f with
  | absent => simp [load_device_selectable_state] at h
  | malformed => rfl
  | valid m => simp [load_device_selectable_state] at h

/-- Witness for C8 at a concrete input: the malformed file is the one
producing the error. -/
theorem C8_load_absent_is_empty_witness :
    ConfigFile.malformed = ConfigFile.malformed :=
  C8_load_absent_is_empty.2.2 ConfigFile.malformed
    "invalid JSON in device_config.json" rfl

/-- C9 counterexample: a selectable device whose display name encodes to
128 UTF-16 code units makes the tooltip assertion of next_device fail, so
activating the next device panics on this input. -/
theorem C9_counterexample :
    next_device_run [⟨"id-long", String.mk (List.replicate 128 'a'), true, 0⟩]
      "id-long" = RunResult.panicked := by decide

/-- C9 amended: activating the next device never panics provided every
device display name encodes to fewer than 128 UTF-16 code units (the
tooltip buffer bound asserted by string_to_tip); names of 128 units or
more fail that assertion and abort the process, as the non-goals of the
spec concede for over-long identifiers. -/
theorem C9_no_panic_short_names (devices : List AudioDevice) (current : String)
    (h : ∀ d ∈ devices, (utf16Units d.friendly_name).length < 128) :
    next_device_run devices current ≠ RunResult.panicked := by
  unfold next_device_run
  cases hnext : next_device devices current with
  | none => simp
  | some d =>
    have hmem := next_device_mem devices current d hnext
    have hlen := h d hmem.1
    have htip : string_to_tip d.friendly_name
        = some (utf16Units d.friendly_name
            ++ List.replicate (128 - (utf16Units d.friendly_name).length) 0) := by
      unfold string_to_tip
      simp [hlen]
    show (match string_to_tip d.friendly_name with
      | some _ => RunResult.ok (some d)
      | none => RunResult.panicked) ≠ RunResult.panicked
    rw [htip]
    simp

/-- Witness for C9 at a concrete input: every name of the scenario list is
short. -/
theorem C9_no_panic_short_names_witness :
    next_device_run [devA, devB, devC] "id-a" ≠ RunResult.panicked :=
  C9_no_panic_short_names [devA, devB, devC] "id-a" (by decide)

/-- C10: apply_device_selectable_state keeps the length and order of the
list; every device keeps its id, display name and form factor; and a
device whose id is not a key of the saved map is entirely unchanged. -/
theorem C10_apply_frame (devices : List AudioDevice) (saved : List (String × Bool)) :
    (apply_device_selectable_state devices saved).length = devices.length
    ∧ ∀ j (hj : j < devices.length)
        (hj2 : j < (apply_device_selectable_state devices saved).length),
        ((apply_device_selectable_state devices saved).get ⟨j, hj2⟩).id
            = (devices.get ⟨j, hj⟩).id
        ∧ ((apply_device_selectable_state devices saved).get ⟨j, hj2⟩).friendly_name
            = (devices.get ⟨j, hj⟩).friendly_name
        ∧ ((apply_device_selectable_state devices saved).get ⟨j, hj2⟩).form_factor
            = (devices.get ⟨j, hj⟩).form_factor
        ∧ (hmGet saved (devices.get ⟨j, hj⟩).id = none →
            (apply_device_selectable_state devices saved).get ⟨j, hj2⟩
              = devices.get ⟨j, hj⟩) := by
  constructor
  · unfold apply_device_selectable_state
    exact List.length_map _ _
  · intro j hj hj2
    rw [apply_get devices saved j hj hj2]
    cases hget : hmGet saved (devices.get ⟨j, hj⟩).id with
    | some b =>
      simp only [hget]
      simp
    | none =>
      simp only [hget]
      simp

/-- Witness for C10 at a concrete input: a saved map whose single key
matches no device; device A is entirely unchanged. -/
theorem C10_apply_frame_witness :
    (apply_device_selectable_state [devA] [("zzz", false)]).get ⟨0, by decide⟩
      = ([devA] : List AudioDevice).get ⟨0, by decide⟩ :=
  ((C10_apply_frame [devA] [("zzz", false)]).2 0 (by decide) (by decide)).2.2.2
    (by decide)
